import Mathlib

/-!
Verification of the camera navigation controller of the image-viewer-3d
repository (`src/unnamed/part_000`, component `CameraRig`), the canonical
raycast-zoom version of the code.  JavaScript numbers are modelled as real
numbers (exact arithmetic); the mutable refs of the React component become
the fields of an explicit state record, and each event listener becomes a
state-transition function translated line by line from the source.
-/

noncomputable section

namespace ImageViewer

/-- A 3D vector, as used by the three.js `Vector3` objects the code
manipulates (camera position, ray origin/direction, zoom direction). -/
@[ext]
structure Vec3 where
  x : ℝ
  y : ℝ
  z : ℝ

/-- three.js `Vector3.add`: componentwise sum. -/
def Vec3.add (a b : Vec3) : Vec3 :=
  ⟨a.x + b.x, a.y + b.y, a.z + b.z⟩

/-- three.js `Vector3.sub`: componentwise difference. -/
def Vec3.sub (a b : Vec3) : Vec3 :=
  ⟨a.x - b.x, a.y - b.y, a.z - b.z⟩

/-- three.js `Vector3.multiplyScalar`. -/
def Vec3.multiplyScalar (a : Vec3) (s : ℝ) : Vec3 :=
  ⟨a.x * s, a.y * s, a.z * s⟩

/-- three.js `Vector3.divideScalar( s )`, which is `multiplyScalar( 1 / s )`. -/
def Vec3.divideScalar (a : Vec3) (s : ℝ) : Vec3 :=
  a.multiplyScalar (1 / s)

/-- three.js `Vector3.length`: Euclidean norm. -/
def Vec3.length (a : Vec3) : ℝ :=
  Real.sqrt (a.x * a.x + a.y * a.y + a.z * a.z)

/-- three.js `Vector3.normalize`, which is `divideScalar( length() || 1 )`:
a zero-length vector is divided by 1 (left unchanged) instead of producing
NaN components. -/
def Vec3.normalize (a : Vec3) : Vec3 :=
  a.divideScalar (if a.length = 0 then 1 else a.length)

/-- A world-space ray as produced by `THREE.Raycaster.setFromCamera`:
origin (the camera's world position) plus a unit direction.  The raycaster
itself is the external rendering collaborator; the wheel handler consumes
the ray it returns. -/
structure Ray where
  origin : Vec3
  direction : Vec3

/-- `raycaster.ray.origin.clone().add(raycaster.ray.direction.clone()
.multiplyScalar(d))`: the point `d` units along a ray (part_000 lines
71-73 with d = 10). -/
def pointAlong (r : Ray) (d : ℝ) : Vec3 :=
  r.origin.add (r.direction.multiplyScalar d)

/-- The mutable state of `CameraRig` (part_000 lines 29-35): the refs
`targetX`, `targetY`, `targetZ` (NavigationTarget), `ctrlPressed`
(ModifierState), `isDragging` and `lastMouse` (DragState), together with
the camera position the rig reads and writes. -/
@[ext]
structure RigState where
  targetX : ℝ
  targetY : ℝ
  targetZ : ℝ
  ctrlPressed : Bool
  isDragging : Bool
  lastMouseX : ℝ
  lastMouseY : ℝ
  camera : Vec3

/-- Initial rig state: targets `(0, 0, camera.position.z)` with the camera
created at `[0, 0, 10]` (part_000 lines 29-31 and 227). -/
def initialState : RigState :=
  { targetX := 0, targetY := 0, targetZ := 10
    ctrlPressed := false, isDragging := false
    lastMouseX := 0, lastMouseY := 0
    camera := ⟨0, 0, 10⟩ }

/-- `handleKeyDown` (part_000 lines 53-55): sets `ctrlPressed` on the
Control key, ignores every other key. -/
def handleKeyDown (s : RigState) (key : String) : RigState :=
  if key = "Control" then { s with ctrlPressed := true } else s

/-- `handleKeyUp` (part_000 lines 56-58): clears `ctrlPressed` on the
Control key, ignores every other key. -/
def handleKeyUp (s : RigState) (key : String) : RigState :=
  if key = "Control" then { s with ctrlPressed := false } else s

/-- The on-screen bounding rectangle of the renderer's canvas
(`renderer.domElement.getBoundingClientRect()`). -/
structure Rect where
  left : ℝ
  top : ℝ
  width : ℝ
  height : ℝ

/-- Pointer pixel coordinates to normalized device coordinates
(part_000 lines 63-66). -/
def mouseNDC (clientX clientY : ℝ) (rect : Rect) : ℝ × ℝ :=
  (((clientX - rect.left) / rect.width) * 2 - 1,
   -((clientY - rect.top) / rect.height) * 2 + 1)

/-- `handleWheel` (part_000 lines 59-85).  The ray through the pointer is
produced by the external `THREE.Raycaster` (`setFromCamera`) and is taken
here as an argument.  Modifier held: point 10 units along the ray,
`zoomFactor = -deltaY * 0.5`, direction = normalized (point − camera
position), each target component advanced by `direction * zoomFactor`.
Modifier not held: `targetY += deltaY * 0.06`. -/
def handleWheel (s : RigState) (ray : Ray) (deltaY : ℝ) : RigState :=
  if s.ctrlPressed then
    let point := pointAlong ray 10
    let zoomFactor := -deltaY * 0.5
    let direction := (point.sub s.camera).normalize
    { s with targetX := s.targetX + direction.x * zoomFactor
             targetY := s.targetY + direction.y * zoomFactor
             targetZ := s.targetZ + direction.z * zoomFactor }
  else
    { s with targetY := s.targetY + deltaY * 0.06 }

/-- `handleMouseDown` (part_000 lines 87-90): starts a drag and records
the pointer position. -/
def handleMouseDown (s : RigState) (clientX clientY : ℝ) : RigState :=
  { s with isDragging := true, lastMouseX := clientX, lastMouseY := clientY }

/-- `handleMouseMove` (part_000 lines 91-98): while dragging, pans the
target by the pointer delta (`targetX -= dx * 0.09`, `targetY += dy * 0.09`)
and updates `lastMouse`; otherwise returns immediately. -/
def handleMouseMove (s : RigState) (clientX clientY : ℝ) : RigState :=
  if s.isDragging then
    let dx := clientX - s.lastMouseX
    let dy := clientY - s.lastMouseY
    { s with targetX := s.targetX - dx * 0.09
             targetY := s.targetY + dy * 0.09
             lastMouseX := clientX, lastMouseY := clientY }
  else
    s

/-- `handleMouseUp` (part_000 lines 99-101): ends the drag. -/
def handleMouseUp (s : RigState) : RigState :=
  { s with isDragging := false }

/-- `cameraControl.current.reset` (part_000 lines 40-44): sets the
NavigationTarget to `(0, 0, 10)`. -/
def reset (s : RigState) : RigState :=
  { s with targetX := 0, targetY := 0, targetZ := 10 }

/-- `cameraControl.current.focusOn` (part_000 lines 45-49): sets the
NavigationTarget to `(x, y, z + 5)`. -/
def focusOn (s : RigState) (x y z : ℝ) : RigState :=
  { s with targetX := x, targetY := y, targetZ := z + 5 }

/-- The `useFrame` per-frame integration step (part_000 lines 120-124):
each camera axis moves a fixed fraction 0.1 of the way to its target. -/
def useFrameStep (s : RigState) : RigState :=
  { s with camera := ⟨s.camera.x + (s.targetX - s.camera.x) * 0.1,
                      s.camera.y + (s.targetY - s.camera.y) * 0.1,
                      s.camera.z + (s.targetZ - s.camera.z) * 0.1⟩ }

/-- The navigation intents the rig receives: key events, wheel events
(carrying the raycaster's ray for the pointer position), pointer events,
and the two external control calls. -/
inductive Event where
  | keyDown (key : String)
  | keyUp (key : String)
  | wheel (ray : Ray) (deltaY : ℝ)
  | mouseDown (clientX clientY : ℝ)
  | mouseMove (clientX clientY : ℝ)
  | mouseUp
  | reset
  | focusOn (x y z : ℝ)

/-- Dispatch of one event to its handler. -/
def step (s : RigState) : Event → RigState
  | .keyDown k => handleKeyDown s k
  | .keyUp k => handleKeyUp s k
  | .wheel ray deltaY => handleWheel s ray deltaY
  | .mouseDown cx cy => handleMouseDown s cx cy
  | .mouseMove cx cy => handleMouseMove s cx cy
  | .mouseUp => handleMouseUp s
  | .reset => reset s
  | .focusOn x y z => focusOn s x y z

/-- Run a sequence of events from a state. -/
def run (s : RigState) (es : List Event) : RigState :=
  es.foldl step s

/-- The pan intents: drag-start, drag-move, drag-end. -/
def Event.isPan : Event → Bool
  | .mouseDown _ _ => true
  | .mouseMove _ _ => true
  | .mouseUp => true
  | _ => false

/-- The named zoom gain of the spec; the source writes the literal `0.5`
(part_000 line 75). -/
def ZOOM_GAIN : ℝ := 0.5

/-- The named damping constant of the spec; the source writes the literal
`0.1` (part_000 lines 121-123). -/
def DAMPING : ℝ := 0.1

/-- The named focus offset of the spec; the source writes the literal `5`
(part_000 line 48). -/
def focusOffset : ℝ := 5

/-- Follows the spec's words (§4.3, wheel with modifier active): take the
point 10 units along the ray through the pointer, form the unit direction
from the camera's current actual position to that point, and advance the
NavigationTarget by that direction scaled by `zoomFactor = -deltaY *
ZOOM_GAIN` on all three axes; per §7, a zero-length direction before
normalization is a no-op for the event. -/
def specWheelZoom (s : RigState) (ray : Ray) (deltaY : ℝ) : RigState :=
  let point := pointAlong ray 10
  let diff := point.sub s.camera
  if diff.length = 0 then s
  else
    let direction : Vec3 := ⟨diff.x / diff.length, diff.y / diff.length, diff.z / diff.length⟩
    let zoomFactor := -deltaY * ZOOM_GAIN
    { s with targetX := s.targetX + direction.x * zoomFactor
             targetY := s.targetY + direction.y * zoomFactor
             targetZ := s.targetZ + direction.z * zoomFactor }

/-- Initial state with a drag in progress (pointer last seen at (0,0)). -/
def dragState : RigState :=
  { initialState with isDragging := true }

/-- Initial state with the Control modifier held. -/
def zoomState : RigState :=
  { initialState with ctrlPressed := true }

/-- The ray `setFromCamera` produces for NDC (0,0) with the camera at
(0, 0, 10) looking down the negative z axis: origin at the camera,
direction (0, 0, -1). -/
def centerRay : Ray := ⟨⟨0, 0, 10⟩, ⟨0, 0, -1⟩⟩

/-- A degenerate ray whose 10-unit point coincides with the camera
position (0, 0, 10): zero direction. -/
def degenerateRay : Ray := ⟨⟨0, 0, 10⟩, ⟨0, 0, 0⟩⟩

/-- A concrete drag sequence: drag-start, drag-move, drag-end. -/
def panEvents : List Event :=
  [.mouseDown 3 4, .mouseMove 10 (-5), .mouseUp]

/-- A zero-length three.js vector has all components zero (the norm is a
sum of squares under a square root). -/
lemma Vec3.length_eq_zero_iff (a : Vec3) :
    a.length = 0 ↔ a = ⟨0, 0, 0⟩ := by
  unfold Vec3.length
  rw [Real.sqrt_eq_zero
    (add_nonneg (add_nonneg (mul_self_nonneg a.x) (mul_self_nonneg a.y)) (mul_self_nonneg a.z))]
  constructor
  · intro h
    have hx : a.x = 0 := by nlinarith [mul_self_nonneg a.x, mul_self_nonneg a.y, mul_self_nonneg a.z]
    have hy : a.y = 0 := by nlinarith [mul_self_nonneg a.x, mul_self_nonneg a.y, mul_self_nonneg a.z]
    have hz : a.z = 0 := by nlinarith [mul_self_nonneg a.x, mul_self_nonneg a.y, mul_self_nonneg a.z]
    exact Vec3.ext hx hy hz
  · intro h
    rw [h]
    norm_num

/-- C4: for every prior state, `focusOn(x, y, z)` sets the NavigationTarget
to exactly `(x, y, z + focusOffset)` with the fixed constant focusOffset in
the 5-10 unit range, and a second call supersedes the first entirely (no
accumulation). -/
theorem focusOn_sets_target (s : RigState) (x y z : ℝ) :
    (focusOn s x y z).targetX = x ∧
    (focusOn s x y z).targetY = y ∧
    (focusOn s x y z).targetZ = z + focusOffset ∧
    5 ≤ focusOffset ∧ focusOffset ≤ 10 ∧
    ∀ x0 y0 z0 : ℝ, focusOn (focusOn s x0 y0 z0) x y z = focusOn s x y z := by
  refine ⟨rfl, rfl, rfl, by norm_num [focusOffset], by norm_num [focusOffset], ?_⟩
  intro x0 y0 z0
  rfl

/-- C5: for every prior state, `reset()` sets the NavigationTarget to
exactly `(0, 0, 10)`, where 10 is the initial camera z distance from the
origin. -/
theorem reset_sets_target (s : RigState) :
    (reset s).targetX = 0 ∧ (reset s).targetY = 0 ∧ (reset s).targetZ = 10 ∧
    (reset s).targetZ = initialState.camera.z :=
  ⟨rfl, rfl, rfl, rfl⟩

/-- C10: `reset` and `focusOn` mutate only the NavigationTarget: the
modifier flag, the dragging flag and the last pointer position are all
unchanged by either call (so a reset issued mid-drag does not end the
drag). -/
theorem reset_focusOn_only_target (s : RigState) (x y z : ℝ) :
    (reset s).ctrlPressed = s.ctrlPressed ∧
    (reset s).isDragging = s.isDragging ∧
    (reset s).lastMouseX = s.lastMouseX ∧
    (reset s).lastMouseY = s.lastMouseY ∧
    (focusOn s x y z).ctrlPressed = s.ctrlPressed ∧
    (focusOn s x y z).isDragging = s.isDragging ∧
    (focusOn s x y z).lastMouseX = s.lastMouseX ∧
    (focusOn s x y z).lastMouseY = s.lastMouseY :=
  ⟨rfl, rfl, rfl, rfl, rfl, rfl, rfl, rfl⟩

/-- C7: a mousemove while dragging pans the target by the pointer delta
relative to lastMouse (`targetX` by `-dx * 0.09`, `targetY` by
`+dy * 0.09`, `targetZ` untouched) and records the new pointer position;
a mousemove while not dragging changes nothing. -/
theorem mouseMove_pan (s : RigState) (cx cy : ℝ) :
    (s.isDragging = true →
      (handleMouseMove s cx cy).targetX = s.targetX - (cx - s.lastMouseX) * 0.09 ∧
      (handleMouseMove s cx cy).targetY = s.targetY + (cy - s.lastMouseY) * 0.09 ∧
      (handleMouseMove s cx cy).targetZ = s.targetZ ∧
      (handleMouseMove s cx cy).lastMouseX = cx ∧
      (handleMouseMove s cx cy).lastMouseY = cy) ∧
    (s.isDragging = false → handleMouseMove s cx cy = s) := by
  constructor
  · intro h
    simp [handleMouseMove, h]
  · intro h
    simp [handleMouseMove, h]

/-- C7 witness: from the initial state with a drag in progress and the
pointer last at (0,0), a move to (10,-5) changes targetX by -0.9 and
targetY by -0.45; without a drag the same move is a no-op. -/
theorem mouseMove_pan_witness :
    (handleMouseMove dragState 10 (-5)).targetX = -0.9 ∧
    (handleMouseMove dragState 10 (-5)).targetY = -0.45 ∧
    handleMouseMove initialState 10 (-5) = initialState := by
  have h1 := (mouseMove_pan dragState 10 (-5)).1 rfl
  have h2 := (mouseMove_pan initialState 10 (-5)).2 rfl
  refine ⟨?_, ?_, h2⟩
  · rw [h1.1]
    norm_num [dragState, initialState]
  · rw [h1.2.1]
    norm_num [dragState, initialState]

/-- C8: a wheel event without the modifier adds `deltaY * 0.06` to
targetY and changes nothing else. -/
theorem wheel_pan_no_modifier (s : RigState) (ray : Ray) (deltaY : ℝ)
    (h : s.ctrlPressed = false) :
    handleWheel s ray deltaY = { s with targetY := s.targetY + deltaY * 0.06 } := by
  simp [handleWheel, h]

/-- C8 witness: from the initial state (modifier inactive), deltaY = -100
moves targetY by exactly -6 and leaves the other target axes alone. -/
theorem wheel_pan_no_modifier_witness :
    (handleWheel initialState centerRay (-100)).targetY = -6 ∧
    (handleWheel initialState centerRay (-100)).targetX = 0 ∧
    (handleWheel initialState centerRay (-100)).targetZ = 10 := by
  have h := wheel_pan_no_modifier initialState centerRay (-100) rfl
  rw [h]
  norm_num [initialState]

/-- Each pan intent (drag-start, drag-move, drag-end) leaves targetZ
untouched. -/
lemma pan_step_targetZ (s : RigState) (e : Event) (h : e.isPan = true) :
    (step s e).targetZ = s.targetZ := by
  cases e with
  | mouseDown cx cy => rfl
  | mouseMove cx cy =>
      show (handleMouseMove s cx cy).targetZ = s.targetZ
      unfold handleMouseMove
      split <;> rfl
  | mouseUp => rfl
  | _ => simp [Event.isPan] at h

/-- C9: a sequence consisting only of pan intents (drag-start, drag-move,
drag-end; no wheel or zoom events, no reset or focusOn calls) leaves
targetZ unchanged. -/
theorem pan_preserves_targetZ (s : RigState) (es : List Event)
    (h : es.all Event.isPan = true) : (run s es).targetZ = s.targetZ := by
  induction es generalizing s with
  | nil => rfl
  | cons e es ih =>
      rw [List.all_cons, Bool.and_eq_true] at h
      have hrun : run s (e :: es) = run (step s e) es := rfl
      rw [hrun, ih (step s e) h.2, pan_step_targetZ s e h.1]

/-- C9 witness: the concrete drag sequence down-(3,4), move-(10,-5), up
leaves targetZ at its initial value 10. -/
theorem pan_preserves_targetZ_witness :
    (run initialState panEvents).targetZ = 10 := by
  have h := pan_preserves_targetZ initialState panEvents rfl
  simpa using h

/-- The integration step leaves the target fixed, and after n frames each
camera axis differs from its (constant) target by the initial difference
times `(1 - DAMPING) ^ n`. -/
lemma useFrameStep_iterate (s : RigState) (n : ℕ) :
    (useFrameStep^[n] s).targetX = s.targetX ∧
    (useFrameStep^[n] s).targetY = s.targetY ∧
    (useFrameStep^[n] s).targetZ = s.targetZ ∧
    (useFrameStep^[n] s).camera.x - s.targetX = (s.camera.x - s.targetX) * (1 - DAMPING) ^ n ∧
    (useFrameStep^[n] s).camera.y - s.targetY = (s.camera.y - s.targetY) * (1 - DAMPING) ^ n ∧
    (useFrameStep^[n] s).camera.z - s.targetZ = (s.camera.z - s.targetZ) * (1 - DAMPING) ^ n := by
  induction n with
  | zero => simp
  | succ n ih =>
      obtain ⟨h1, h2, h3, h4, h5, h6⟩ := ih
      rw [Function.iterate_succ_apply']
      refine ⟨h1, h2, h3, ?_, ?_, ?_⟩
      · show (useFrameStep^[n] s).camera.x +
          ((useFrameStep^[n] s).targetX - (useFrameStep^[n] s).camera.x) * 0.1 - s.targetX = _
        rw [h1, pow_succ, ← mul_assoc, ← h4]
        norm_num [DAMPING]
        ring
      · show (useFrameStep^[n] s).camera.y +
          ((useFrameStep^[n] s).targetY - (useFrameStep^[n] s).camera.y) * 0.1 - s.targetY = _
        rw [h2, pow_succ, ← mul_assoc, ← h5]
        norm_num [DAMPING]
        ring
      · show (useFrameStep^[n] s).camera.z +
          ((useFrameStep^[n] s).targetZ - (useFrameStep^[n] s).camera.z) * 0.1 - s.targetZ = _
        rw [h3, pow_succ, ← mul_assoc, ← h6]
        norm_num [DAMPING]
        ring

/-- C3: one integration step moves each camera axis by
`(target - pose) * DAMPING` with `DAMPING = 0.1` strictly between 0 and 1
and leaves the target fixed; with a constant target the per-axis distance
to the target shrinks by the exact factor `1 - DAMPING` every frame, the
pose converges to the target as the number of frames grows, and the pose
never crosses to the far side of the target (the sign of pose - target
never flips). -/
theorem frame_damping (s : RigState) :
    (DAMPING = 0.1 ∧ 0 < DAMPING ∧ DAMPING < 1) ∧
    ((useFrameStep s).camera.x = s.camera.x + (s.targetX - s.camera.x) * DAMPING ∧
     (useFrameStep s).camera.y = s.camera.y + (s.targetY - s.camera.y) * DAMPING ∧
     (useFrameStep s).camera.z = s.camera.z + (s.targetZ - s.camera.z) * DAMPING ∧
     (useFrameStep s).targetX = s.targetX ∧
     (useFrameStep s).targetY = s.targetY ∧
     (useFrameStep s).targetZ = s.targetZ) ∧
    (∀ n : ℕ,
      |(useFrameStep^[n + 1] s).camera.x - s.targetX| =
        (1 - DAMPING) * |(useFrameStep^[n] s).camera.x - s.targetX| ∧
      |(useFrameStep^[n + 1] s).camera.y - s.targetY| =
        (1 - DAMPING) * |(useFrameStep^[n] s).camera.y - s.targetY| ∧
      |(useFrameStep^[n + 1] s).camera.z - s.targetZ| =
        (1 - DAMPING) * |(useFrameStep^[n] s).camera.z - s.targetZ|) ∧
    (Filter.Tendsto (fun n => (useFrameStep^[n] s).camera.x) Filter.atTop (nhds s.targetX) ∧
     Filter.Tendsto (fun n => (useFrameStep^[n] s).camera.y) Filter.atTop (nhds s.targetY) ∧
     Filter.Tendsto (fun n => (useFrameStep^[n] s).camera.z) Filter.atTop (nhds s.targetZ)) ∧
    (∀ n : ℕ,
      0 ≤ ((useFrameStep^[n] s).camera.x - s.targetX) * (s.camera.x - s.targetX) ∧
      0 ≤ ((useFrameStep^[n] s).camera.y - s.targetY) * (s.camera.y - s.targetY) ∧
      0 ≤ ((useFrameStep^[n] s).camera.z - s.targetZ) * (s.camera.z - s.targetZ)) := by
  have hd0 : (0 : ℝ) < 1 - DAMPING := by norm_num [DAMPING]
  have hiter := useFrameStep_iterate s
  refine ⟨⟨rfl, by norm_num [DAMPING], by norm_num [DAMPING]⟩, ⟨?_, ?_, ?_, rfl, rfl, rfl⟩,
    ?_, ⟨?_, ?_, ?_⟩, ?_⟩
  · show s.camera.x + (s.targetX - s.camera.x) * 0.1 = _
    norm_num [DAMPING]
  · show s.camera.y + (s.targetY - s.camera.y) * 0.1 = _
    norm_num [DAMPING]
  · show s.camera.z + (s.targetZ - s.camera.z) * 0.1 = _
    norm_num [DAMPING]
  · intro n
    obtain ⟨_, _, _, h4, h5, h6⟩ := hiter n
    obtain ⟨_, _, _, g4, g5, g6⟩ := hiter (n + 1)
    refine ⟨?_, ?_, ?_⟩
    · rw [h4, g4, pow_succ, ← mul_assoc, abs_mul, abs_mul, abs_of_pos hd0]
      ring
    · rw [h5, g5, pow_succ, ← mul_assoc, abs_mul, abs_mul, abs_of_pos hd0]
      ring
    · rw [h6, g6, pow_succ, ← mul_assoc, abs_mul, abs_mul, abs_of_pos hd0]
      ring
  · have hpow : Filter.Tendsto (fun n : ℕ => ((1 : ℝ) - DAMPING) ^ n) Filter.atTop (nhds 0) :=
      tendsto_pow_atTop_nhds_zero_of_lt_one (by norm_num [DAMPING]) (by norm_num [DAMPING])
    have h : (fun n => (useFrameStep^[n] s).camera.x) =
        fun n => s.targetX + (s.camera.x - s.targetX) * (1 - DAMPING) ^ n := by
      funext n
      have := (hiter n).2.2.2.1
      linarith
    rw [h]
    have := (hpow.const_mul (s.camera.x - s.targetX)).const_add s.targetX
    simpa using this
  · have hpow : Filter.Tendsto (fun n : ℕ => ((1 : ℝ) - DAMPING) ^ n) Filter.atTop (nhds 0) :=
      tendsto_pow_atTop_nhds_zero_of_lt_one (by norm_num [DAMPING]) (by norm_num [DAMPING])
    have h : (fun n => (useFrameStep^[n] s).camera.y) =
        fun n => s.targetY + (s.camera.y - s.targetY) * (1 - DAMPING) ^ n := by
      funext n
      have := (hiter n).2.2.2.2.1
      linarith
    rw [h]
    have := (hpow.const_mul (s.camera.y - s.targetY)).const_add s.targetY
    simpa using this
  · have hpow : Filter.Tendsto (fun n : ℕ => ((1 : ℝ) - DAMPING) ^ n) Filter.atTop (nhds 0) :=
      tendsto_pow_atTop_nhds_zero_of_lt_one (by norm_num [DAMPING]) (by norm_num [DAMPING])
    have h : (fun n => (useFrameStep^[n] s).camera.z) =
        fun n => s.targetZ + (s.camera.z - s.targetZ) * (1 - DAMPING) ^ n := by
      funext n
      have := (hiter n).2.2.2.2.2
      linarith
    rw [h]
    have := (hpow.const_mul (s.camera.z - s.targetZ)).const_add s.targetZ
    simpa using this
  · intro n
    obtain ⟨_, _, _, h4, h5, h6⟩ := hiter n
    have hp : (0 : ℝ) ≤ (1 - DAMPING) ^ n := le_of_lt (pow_pos hd0 n)
    refine ⟨?_, ?_, ?_⟩
    · rw [h4]
      nlinarith [sq_nonneg (s.camera.x - s.targetX)]
    · rw [h5]
      nlinarith [sq_nonneg (s.camera.y - s.targetY)]
    · rw [h6]
      nlinarith [sq_nonneg (s.camera.z - s.targetZ)]

/-- The modifier-active wheel handler, evaluated on the center ray with
the camera at (0, 0, 10): the zoom direction is (0, 0, -1), targetX and
targetY are unchanged, and targetZ is advanced by `-1 * zoomFactor`. -/
lemma handleWheel_center_eval (s : RigState) (h : s.ctrlPressed = true)
    (hc : s.camera = ⟨0, 0, 10⟩) (deltaY : ℝ) :
    ((pointAlong centerRay 10).sub s.camera).normalize = ⟨0, 0, -1⟩ ∧
    (handleWheel s centerRay deltaY).targetX = s.targetX ∧
    (handleWheel s centerRay deltaY).targetY = s.targetY ∧
    (handleWheel s centerRay deltaY).targetZ = s.targetZ + (-1) * (-deltaY * 0.5) := by
  have hdiff : (pointAlong centerRay 10).sub s.camera = ⟨0, 0, -10⟩ := by
    rw [hc]
    unfold pointAlong centerRay Vec3.add Vec3.sub Vec3.multiplyScalar
    norm_num
  have hlen : (Vec3.mk (0 : ℝ) 0 (-10)).length = 10 := by
    unfold Vec3.length
    rw [show ((0 : ℝ) * 0 + 0 * 0 + (-10) * (-10)) = 10 ^ 2 by norm_num]
    exact Real.sqrt_sq (by norm_num)
  have hnorm : ((pointAlong centerRay 10).sub s.camera).normalize = ⟨0, 0, -1⟩ := by
    rw [hdiff]
    unfold Vec3.normalize Vec3.divideScalar Vec3.multiplyScalar
    rw [hlen]
    norm_num
  refine ⟨hnorm, ?_, ?_, ?_⟩ <;>
    simp [handleWheel, h, hnorm]

/-- C1 counterexample: with the modifier held, the camera at (0, 0, 10)
and the ray through the canvas center, a wheel event with deltaY = -20
moves targetZ from 10 to 0, that is by -10, not by +10 as claimed: the
zoom direction the code computes points from the camera toward the cursor
point, which is (0, 0, -1), not (0, 0, 1). -/
theorem wheel_zoom_center_counterexample :
    (handleWheel zoomState centerRay (-20)).targetZ = zoomState.targetZ - 10 ∧
    zoomState.targetZ - 10 ≠ zoomState.targetZ + 10 := by
  have h := handleWheel_center_eval zoomState rfl rfl (-20)
  constructor
  · rw [h.2.2.2]
    ring
  · norm_num [zoomState, initialState]

/-- C1 (amended): with the modifier active, the camera at (0, 0, 10)
looking down -z and the pointer at the canvas center (NDC (0, 0)), a
wheel event with deltaY = -20 yields zoomFactor = 10, uses the zoom
direction (0, 0, -1), and changes targetZ by -10 (toward the cursor
point), leaving targetX and targetY unchanged. -/
theorem wheel_zoom_center (s : RigState) (h : s.ctrlPressed = true)
    (hc : s.camera = ⟨0, 0, 10⟩) :
    (∀ rect : Rect, rect.width ≠ 0 → rect.height ≠ 0 →
      mouseNDC (rect.left + rect.width / 2) (rect.top + rect.height / 2) rect = (0, 0)) ∧
    ((pointAlong centerRay 10).sub s.camera).normalize = ⟨0, 0, -1⟩ ∧
    -(-20 : ℝ) * ZOOM_GAIN = 10 ∧
    (handleWheel s centerRay (-20)).targetZ = s.targetZ - 10 ∧
    (handleWheel s centerRay (-20)).targetX = s.targetX ∧
    (handleWheel s centerRay (-20)).targetY = s.targetY := by
  have he := handleWheel_center_eval s h hc (-20)
  refine ⟨?_, he.1, by norm_num [ZOOM_GAIN], ?_, he.2.1, he.2.2.1⟩
  · intro rect hw hh
    unfold mouseNDC
    rw [show rect.left + rect.width / 2 - rect.left = rect.width / 2 by ring,
        show rect.top + rect.height / 2 - rect.top = rect.height / 2 by ring]
    field_simp
    constructor <;> ring
  · rw [he.2.2.2]
    ring

/-- C1 witness: from the initial state with the modifier held (targets at
(0, 0, 10), camera at (0, 0, 10)), the center-ray wheel event with
deltaY = -20 produces targets (0, 0, 0). -/
theorem wheel_zoom_center_witness :
    (handleWheel zoomState centerRay (-20)).targetZ = 0 ∧
    (handleWheel zoomState centerRay (-20)).targetX = 0 ∧
    (handleWheel zoomState centerRay (-20)).targetY = 0 := by
  have h := wheel_zoom_center zoomState rfl rfl
  refine ⟨?_, ?_, ?_⟩
  · rw [h.2.2.2.1]
    norm_num [zoomState, initialState]
  · rw [h.2.2.2.2.1]
    norm_num [zoomState, initialState]
  · rw [h.2.2.2.2.2]
    norm_num [zoomState, initialState]

/-- C2: with the modifier held, the wheel handler agrees with the
behavior the spec describes word for word (point 10 units along the
pointer ray, unit direction from the camera's current position to it,
target advanced on all three axes by that direction times
`zoomFactor = -deltaY * ZOOM_GAIN`), and the gain is a fixed positive
constant. -/
theorem wheel_zoom_refines_spec (s : RigState) (ray : Ray) (deltaY : ℝ)
    (h : s.ctrlPressed = true) :
    handleWheel s ray deltaY = specWheelZoom s ray deltaY ∧ 0 < ZOOM_GAIN := by
  refine ⟨?_, by norm_num [ZOOM_GAIN]⟩
  unfold handleWheel specWheelZoom
  rw [h]
  by_cases h0 : ((pointAlong ray 10).sub s.camera).length = 0
  · have hv := (Vec3.length_eq_zero_iff _).mp h0
    simp [hv, h0, Vec3.normalize, Vec3.divideScalar, Vec3.multiplyScalar, Vec3.length]
    exact RigState.ext rfl rfl rfl h.symm rfl rfl rfl rfl
  · simp only [if_true, if_neg h0]
    unfold Vec3.normalize Vec3.divideScalar Vec3.multiplyScalar
    rw [if_neg h0]
    refine RigState.ext ?_ ?_ ?_ rfl rfl rfl rfl rfl <;>
      · show _ + _ = _ + _
        unfold ZOOM_GAIN
        ring

/-- C2 witness: the agreement at a concrete input — modifier held, center
ray, deltaY = -20. -/
theorem wheel_zoom_refines_spec_witness :
    handleWheel zoomState centerRay (-20) = specWheelZoom zoomState centerRay (-20) ∧
    0 < ZOOM_GAIN :=
  wheel_zoom_refines_spec zoomState centerRay (-20) rfl

/-- C6: when the computed zoom-target point coincides exactly with the
camera's current position (zero-length direction before normalization),
the modifier-active wheel handler leaves the whole state — in particular
the NavigationTarget — unchanged, rather than producing NaN (three.js
`normalize` maps the zero vector to itself). -/
theorem wheel_zoom_degenerate_noop (s : RigState) (ray : Ray) (deltaY : ℝ)
    (h : s.ctrlPressed = true) (hp : pointAlong ray 10 = s.camera) :
    handleWheel s ray deltaY = s := by
  have hdiff : (pointAlong ray 10).sub s.camera = ⟨0, 0, 0⟩ := by
    rw [hp]
    unfold Vec3.sub
    norm_num
  simp [handleWheel, h, hdiff, Vec3.normalize, Vec3.divideScalar, Vec3.multiplyScalar,
    Vec3.length]
  exact RigState.ext rfl rfl rfl h.symm rfl rfl rfl rfl

/-- C6 witness: a degenerate ray whose 10-unit point is the camera
position (0, 0, 10) leaves the modifier-held state untouched. -/
theorem wheel_zoom_degenerate_noop_witness :
    handleWheel zoomState degenerateRay 7 = zoomState := by
  apply wheel_zoom_degenerate_noop zoomState degenerateRay 7 rfl
  unfold pointAlong degenerateRay zoomState initialState Vec3.add Vec3.multiplyScalar
  norm_num

end ImageViewer

end
